import Mathlib

/-!
Verification of the session-scoped record engine of `school_erp.py`.

The Python program keeps its state in a SQLite database with five record
collections (students, staff, attendance, salary_payments, fee_payments)
plus a key/value settings table.  We embed the database as a `Store` of
lists of records (surrogate `id INTEGER PRIMARY KEY` columns are not
modelled: retrieval order of a list plays the role of rowid order, and a
SQLite `INSERT` appends at the end), and each engine operation as a pure
function on `Store`.  SQL `REAL` columns are modelled as `ℚ`, `INTEGER`
columns as `ℤ` where they can be negative and `ℕ` where the source only
ever stores counts.
-/

namespace SchoolErp

/-! ### Decimal strings

`str(n)` / `str.zfill(width)` from Python, used by the identifier
allocators (`generate_student_number`, `generate_receipt_number`).
The digit list is computed with explicit fuel so the kernel can
evaluate it; `digitsLE n n` agrees with `Nat.digits 10 n`. -/

/-- Little-endian decimal digits of `n`, with explicit structural fuel. -/
def digitsLE : ℕ → ℕ → List ℕ
  | 0, _ => []
  | _ + 1, 0 => []
  | fuel + 1, n + 1 => (n + 1) % 10 :: digitsLE fuel ((n + 1) / 10)

/-- Character list of Python `str(n)` for a natural number `n`. -/
def natStrChars (n : ℕ) : List Char :=
  if n = 0 then ['0'] else ((digitsLE n n).map Nat.digitChar).reverse

/-- Python `str(n)` for a natural number. -/
def natStr (n : ℕ) : String := ⟨natStrChars n⟩

/-- Python `s.zfill(w)`: left-pad with `'0'` to width `w` (for the
sign-free digit strings the allocators produce). -/
def zfill (s : String) (w : ℕ) : String :=
  ⟨List.replicate (w - s.data.length) '0' ++ s.data⟩

/-- Python `s[n:]` character slicing. -/
def strDrop (s : String) (n : ℕ) : String := ⟨s.data.drop n⟩

/-! ### Decoding lemmas

A left inverse of zero-padded decimal rendering, used to prove the
allocated identifier strings are pairwise distinct. -/

/-- Numeric value of a decimal digit character. -/
def undigit (c : Char) : ℕ := c.toNat - 48

/-- Value of a big-endian digit-character list. -/
def decodeDigits (cs : List Char) : ℕ :=
  Nat.ofDigits 10 ((cs.map undigit).reverse)

theorem digitsLE_eq_digits : ∀ fuel n : ℕ, n ≤ fuel → digitsLE fuel n = Nat.digits 10 n := by
  intro fuel
  induction fuel with
  | zero =>
    intro n hn
    have : n = 0 := Nat.le_zero.mp hn
    subst this
    simp [digitsLE]
  | succ f ih =>
    intro n hn
    cases n with
    | zero => simp [digitsLE]
    | succ m =>
      have hdiv : (m + 1) / 10 ≤ f := by
        have h1 : (m + 1) / 10 < m + 1 := Nat.div_lt_self (Nat.succ_pos m) (by norm_num)
        omega
      rw [digitsLE, ih _ hdiv, ← Nat.digits_def' (b := 10) (by norm_num) (Nat.succ_pos m)]

theorem undigit_digitChar {d : ℕ} (hd : d < 10) : undigit (Nat.digitChar d) = d := by
  interval_cases d <;> rfl

theorem map_undigit_natStrChars (n : ℕ) :
    (natStrChars n).map undigit = if n = 0 then [0] else (Nat.digits 10 n).reverse := by
  by_cases h : n = 0
  · subst h; rfl
  · simp only [natStrChars, if_neg h]
    rw [digitsLE_eq_digits n n le_rfl, List.map_reverse, List.map_map]
    congr 1
    have : ∀ d ∈ Nat.digits 10 n, (undigit ∘ Nat.digitChar) d = id d := by
      intro d hd
      exact undigit_digitChar (Nat.digits_lt_base (by norm_num) hd)
    rw [List.map_congr_left this, List.map_id]

theorem ofDigits_replicate_zero : ∀ k : ℕ, Nat.ofDigits 10 (List.replicate k 0) = 0 := by
  intro k
  induction k with
  | zero => rfl
  | succ m ih => simp [List.replicate_succ, Nat.ofDigits_cons, ih]

/-- Decoding inverts zero-padded decimal rendering, whatever the amount of
padding. -/
theorem decode_pad_natStrChars (k n : ℕ) :
    decodeDigits (List.replicate k '0' ++ natStrChars n) = n := by
  have h0 : undigit '0' = 0 := rfl
  have hrep : ∀ m : ℕ, (List.replicate m '0').map undigit = List.replicate m (0 : ℕ) := by
    intro m
    rw [List.map_replicate, h0]
  by_cases h : n = 0
  · subst h
    have hjoin : List.replicate k '0' ++ natStrChars 0 = List.replicate (k + 1) '0' := by
      simp [natStrChars, List.replicate_succ']
    rw [hjoin]
    simp only [decodeDigits, hrep, List.reverse_replicate, ofDigits_replicate_zero]
  · simp only [decodeDigits, List.map_append, hrep, map_undigit_natStrChars, if_neg h]
    rw [List.reverse_append, List.reverse_reverse, List.reverse_replicate]
    rw [Nat.ofDigits_append, Nat.ofDigits_digits, ofDigits_replicate_zero]
    ring

/-- Decode a zero-padded identifier after a 3-character scheme tag. -/
def decodeTagged (s : String) : ℕ := decodeDigits (s.data.drop 3)

theorem decodeTagged_tag_zfill (tag : List Char) (htag : tag.length = 3) (n : ℕ) :
    decodeTagged (⟨tag⟩ ++ zfill (natStr n) 6) = n := by
  simp only [decodeTagged, zfill, natStr]
  have hdata : ((⟨tag⟩ : String) ++ ⟨List.replicate (6 - (natStrChars n).length) '0' ++ natStrChars n⟩).data
      = tag ++ (List.replicate (6 - (natStrChars n).length) '0' ++ natStrChars n) := rfl
  have hd3 : tag.drop 3 = [] := List.drop_eq_nil_of_le (by omega)
  rw [hdata, List.drop_append_of_le_length (by omega), hd3, List.nil_append]
  exact decode_pad_natStrChars (6 - (natStrChars n).length) n

/-! ### Ledger calculator: attendance percentage and status

`MainWindow.update_attendance_percentage` (school_erp.py lines 2612-2629):
`percentage = (days_present / working_days * 100) if working_days > 0 else 0`,
then `Good` if `percentage >= 75`, `Average` if `percentage >= 50`,
else `Poor`.  Spinbox values are integers; the float arithmetic is
modelled over `ℚ`. -/

/-- Attendance percentage from days present and working days. -/
def attendancePercentage (daysPresent workingDays : ℤ) : ℚ :=
  if workingDays > 0 then (daysPresent : ℚ) / (workingDays : ℚ) * 100 else 0

/-- Attendance status label. -/
inductive AttStatus where
  | Good
  | Average
  | Poor
deriving DecidableEq

/-- Status classification of a percentage. -/
def attendanceStatus (percent : ℚ) : AttStatus :=
  if percent ≥ 75 then .Good else if percent ≥ 50 then .Average else .Poor

/-- Band rank used to state monotonicity of the status in the percentage. -/
def statusRank : AttStatus → ℕ
  | .Poor => 0
  | .Average => 1
  | .Good => 2

/-- C7: `attendancePercentage` returns 0 whenever `workingDays ≤ 0`, for every
`daysPresent`; otherwise it returns `daysPresent / workingDays * 100` with no
clamping; and for `workingDays > 0` and `0 ≤ daysPresent ≤ workingDays` the
result lies in `[0, 100]`. -/
theorem attendance_percentage_spec :
    (∀ d w : ℤ, w ≤ 0 → attendancePercentage d w = 0) ∧
    (∀ d w : ℤ, 0 < w → attendancePercentage d w = (d : ℚ) / (w : ℚ) * 100) ∧
    (∀ d w : ℤ, 0 < w → 0 ≤ d → d ≤ w →
      0 ≤ attendancePercentage d w ∧ attendancePercentage d w ≤ 100) := by
  refine ⟨?_, ?_, ?_⟩
  · intro d w hw
    simp [attendancePercentage, not_lt.mpr hw]
  · intro d w hw
    simp [attendancePercentage, hw]
  · intro d w hw hd hdw
    have hwq : (0 : ℚ) < (w : ℚ) := by exact_mod_cast hw
    have hdq : (0 : ℚ) ≤ (d : ℚ) := by exact_mod_cast hd
    have hdwq : (d : ℚ) ≤ (w : ℚ) := by exact_mod_cast hdw
    constructor
    · simp only [attendancePercentage, if_pos hw]
      positivity
    · simp only [attendancePercentage, if_pos hw]
      have hle : (d : ℚ) / (w : ℚ) ≤ 1 := (div_le_one hwq).mpr hdwq
      calc (d : ℚ) / (w : ℚ) * 100 ≤ 1 * 100 := by
            exact mul_le_mul_of_nonneg_right hle (by norm_num)
        _ = 100 := by norm_num

/-- Witness for `attendance_percentage_spec` at `d = 3`, `w = 4` and
`d = 5`, `w = 0`. -/
theorem attendance_percentage_spec_witness :
    attendancePercentage 5 0 = 0 ∧ attendancePercentage 3 4 = (3 : ℚ) / 4 * 100 ∧
    (0 ≤ attendancePercentage 3 4 ∧ attendancePercentage 3 4 ≤ 100) :=
  ⟨attendance_percentage_spec.1 5 0 (by norm_num),
   attendance_percentage_spec.2.1 3 4 (by norm_num),
   attendance_percentage_spec.2.2 3 4 (by norm_num) (by norm_num) (by norm_num)⟩

/-- C8: the attendance status is `Good` iff `percent ≥ 75`, `Average` iff
`50 ≤ percent < 75`, `Poor` iff `percent < 50`, and the status rank is
monotone non-decreasing in the percentage. -/
theorem attendance_status_spec :
    (∀ p : ℚ, attendanceStatus p = .Good ↔ 75 ≤ p) ∧
    (∀ p : ℚ, attendanceStatus p = .Average ↔ 50 ≤ p ∧ p < 75) ∧
    (∀ p : ℚ, attendanceStatus p = .Poor ↔ p < 50) ∧
    (∀ p q : ℚ, p ≤ q → statusRank (attendanceStatus p) ≤ statusRank (attendanceStatus q)) := by
  refine ⟨?_, ?_, ?_, ?_⟩
  · intro p
    unfold attendanceStatus
    split_ifs with h1 h2 <;> simp_all
  · intro p
    unfold attendanceStatus
    split_ifs with h1 h2 <;> simp_all <;> linarith
  · intro p
    unfold attendanceStatus
    split_ifs with h1 h2 <;> simp_all <;> linarith
  · intro p q hpq
    unfold attendanceStatus
    split_ifs with h1 h2 h3 h4 h5 <;> simp [statusRank] <;> linarith

/-- Witness for `attendance_status_spec`: the monotone part applied at
`p = 50`, `q = 75`, plus the band boundaries. -/
theorem attendance_status_spec_witness :
    statusRank (attendanceStatus 50) ≤ statusRank (attendanceStatus 75) ∧
    (attendanceStatus 75 = .Good ↔ (75 : ℚ) ≤ 75) :=
  ⟨attendance_status_spec.2.2.2 50 75 (by norm_num),
   attendance_status_spec.1 75⟩

/-! ### Data model

The five record collections of `DatabaseManager.init_database`
(school_erp.py lines 44-160), surrogate `id` columns omitted.  `class`
and `section` are Lean keywords, so those two columns are rendered as
`class_` and `section_`. -/

/-- A row of the `students` table. -/
structure Student where
  student_number : String
  full_name : String
  roll_number : String
  class_ : String
  section_ : String
  parent_name : String
  gender : String
  dob : String
  parent_number : String
  address : String
  session : String
deriving DecidableEq

/-- A row of the `staff` table. -/
structure Staff where
  staff_id : String
  name : String
  phone : String
  email : String
  designation : String
  qualification : String
  department : String
  joining_date : String
  salary : ℚ
  address : String
  session : String
deriving DecidableEq

/-- A row of the `attendance` table. -/
structure AttendanceRecord where
  student_number : String
  class_ : String
  section_ : String
  month : String
  year : String
  working_days : ℤ
  days_present : ℤ
  percentage : ℚ
  session : String
deriving DecidableEq

/-- A row of the `salary_payments` table. -/
structure SalaryPayment where
  staff_id : String
  staff_name : String
  amount : ℚ
  payment_date : String
  month : String
  year : String
  session : String
deriving DecidableEq

/-- A row of the `fee_payments` table. -/
structure FeePayment where
  receipt_number : String
  student_number : String
  student_name : String
  class_ : String
  section_ : String
  parent_name : String
  months : String
  payment_date : String
  tuition_fee : ℚ
  lab_fee : ℚ
  sport_fee : ℚ
  computer_fee : ℚ
  maintenance_fee : ℚ
  exam_fee : ℚ
  late_fee : ℚ
  total_amount : ℚ
  payment_mode : String
  payment_status : String
  session : String
deriving DecidableEq

/-- The whole database.  List order is rowid (insertion) order; the
`settings` table maps keys to values (a stored SQL NULL is `none`). -/
structure Store where
  students : List Student
  staff : List Staff
  attendance : List AttendanceRecord
  salary_payments : List SalaryPayment
  fee_payments : List FeePayment
  settings : List (String × Option String)
deriving DecidableEq

/-- The freshly created, empty database. -/
def emptyStore : Store :=
  { students := [], staff := [], attendance := [], salary_payments := [],
    fee_payments := [], settings := [] }

/-- `DatabaseManager.set_setting`: `INSERT OR REPLACE INTO settings`. -/
def set_setting (st : Store) (k : String) (v : Option String) : Store :=
  { st with settings := (st.settings.filter (fun p => p.1 ≠ k)) ++ [(k, v)] }

/-- `DatabaseManager.get_setting`: `SELECT value FROM settings WHERE key = ?`,
`None` when the key is absent. -/
def get_setting (st : Store) (k : String) : Option String :=
  match st.settings.find? (fun p => p.1 == k) with
  | some p => p.2
  | none => none

/-- SQLite `INSERT OR REPLACE` keyed by a unique text column: every row whose
key collides with the new row is deleted, then the new row is appended with a
fresh rowid. -/
def upsertBy {α : Type} (key : α → String) (l : List α) (x : α) : List α :=
  (l.filter (fun t => key t ≠ key x)) ++ [x]

/-! ### Identifier allocators -/

/-- `MainWindow.generate_student_number` (lines 2111-2119):
`SELECT COUNT(*) FROM students` — no session filter — then
`"STU" + str(count + 1).zfill(6)`. -/
def generate_student_number (st : Store) : String :=
  "STU" ++ zfill (natStr (st.students.length + 1)) 6

/-- `MainWindow.save_student` (lines 2148-2176): a plain `INSERT INTO
students`; a duplicate `student_number` raises `IntegrityError`, which the
caller catches leaving the store unchanged. -/
def save_student (st : Store) (s : Student) : Store :=
  if st.students.any (fun t => t.student_number == s.student_number) then st
  else { st with students := st.students ++ [s] }

/-- The SQLite `LIKE 'REC%'` predicate of `generate_receipt_number`:
ASCII-case-insensitive prefix match. -/
def likeREC (s : String) : Bool :=
  match s.data with
  | r :: e :: c :: _ =>
      (r == 'R' || r == 'r') && (e == 'E' || e == 'e') && (c == 'C' || c == 'c')
  | _ => false

/-- Value of the longest decimal-digit prefix of a character list. -/
def digitPrefixVal (cs : List Char) : ℕ :=
  decodeDigits (cs.takeWhile Char.isDigit)

/-- SQLite `CAST(text AS INTEGER)` for sign-prefixed decimal text: leading
spaces are skipped, then an optional sign and the longest digit prefix are
interpreted; text with no digit prefix casts to 0. -/
def sqliteCastInt (s : String) : ℤ :=
  match s.data.dropWhile (fun c => c == ' ') with
  | [] => 0
  | c :: rest =>
      if c = '-' then -(digitPrefixVal rest : ℤ)
      else if c = '+' then (digitPrefixVal rest : ℤ)
      else (digitPrefixVal (c :: rest) : ℤ)

/-- One comparison step of the receipt max-scan. -/
def maxCastStep (acc : Option String) (s : String) : Option String :=
  match acc with
  | none => some s
  | some t =>
      if sqliteCastInt (strDrop s 3) > sqliteCastInt (strDrop t 3) then some s else acc

/-- The `ORDER BY CAST(SUBSTR(receipt_number, 4) AS INTEGER) DESC LIMIT 1`
scan of `generate_receipt_number`: keep the first receipt whose cast suffix
is strictly greater than everything before it. -/
def maxByCast (l : List String) : Option String :=
  l.foldl maxCastStep none

/-- A receipt suffix Python `int()` accepts in the allocator: nonempty and
all decimal digits. -/
def wellFormedSuffix (s : String) : Bool :=
  decide ((strDrop s 3).data ≠ []) && (strDrop s 3).data.all Char.isDigit

/-- Python `int(s)` on the digit strings the allocator slices out of
receipt numbers; `none` models the `ValueError` raised on a non-numeric
suffix. -/
def pyInt (s : String) : Option ℕ :=
  if s.data ≠ [] ∧ s.data.all Char.isDigit then some (decodeDigits s.data) else none

/-- `MainWindow.generate_receipt_number` (lines 4448-4470): scan
`fee_payments` for `receipt_number LIKE 'REC%'` ordered by the integer cast
of the suffix, take the top row, parse its suffix with `int`, and render
`"REC" + str(last + 1).zfill(6)`; `REC000001` when no row matches.  `none`
models an uncaught `ValueError` from `int`. -/
def generate_receipt_number (st : Store) : Option String :=
  match maxByCast ((st.fee_payments.map (·.receipt_number)).filter likeREC) with
  | none => some ("REC" ++ zfill (natStr 1) 6)
  | some r =>
      match pyInt (strDrop r 3) with
      | some last => some ("REC" ++ zfill (natStr (last + 1)) 6)
      | none => none

/-- The maximum numeric suffix among well-formed `REC` receipts, as the
spec words it ("takes the maximum"); 0 when no receipt matches. -/
def specReceiptMax (st : Store) : ℕ :=
  (((st.fee_payments.map (·.receipt_number)).filter likeREC).map
    (fun r => decodeDigits (strDrop r 3).data)).foldr max 0

/-! ### Attendance save -/

/-- The attendance composite key comparison of `save_attendance`
(lines 2684-2688): same student_number, month, year and session. -/
def attKey (r a : AttendanceRecord) : Bool :=
  a.student_number == r.student_number && a.month == r.month &&
    a.year == r.year && a.session == r.session

/-- The per-record body of `MainWindow.save_attendance` (lines 2684-2707):
if a row with the composite key exists, `UPDATE` class, section,
working_days, days_present and percentage on every row with that key,
else `INSERT` a fresh row. -/
def save_attendance_one (st : Store) (r : AttendanceRecord) : Store :=
  if st.attendance.any (attKey r) then
    { st with attendance :=
        st.attendance.map (fun a =>
          if attKey r a then
            { a with class_ := r.class_, section_ := r.section_,
                     working_days := r.working_days,
                     days_present := r.days_present,
                     percentage := r.percentage }
          else a) }
  else { st with attendance := st.attendance ++ [r] }

/-! ### Snapshot exporter -/

/-- The backup scope selected in the backup combo box. -/
inductive BackupScope where
  | complete
  | currentSessionOnly
  | specificMonth
deriving DecidableEq

/-- The snapshot document of `create_complete_backup` (lines 5569-5700):
top-level metadata plus the five collection arrays.  The arrays hold
exactly the business fields (the SELECT column mapping drops the surrogate
`id`), so document rows reuse the record types. -/
structure BackupDoc where
  backup_type : String
  backup_date : String
  session : String
  school_name : Option String
  school_address : Option String
  school_email : Option String
  students : List Student
  staff : List Staff
  attendance : List AttendanceRecord
  salary_payments : List SalaryPayment
  fee_payments : List FeePayment
deriving DecidableEq

/-- Substring test on character lists. -/
def hasInfixOf (pat : List Char) : List Char → Bool
  | [] => pat.isEmpty
  | c :: rest => pat.isPrefixOf (c :: rest) || hasInfixOf pat rest

/-- SQLite `months LIKE '%month%'`: ASCII-case-insensitive substring test. -/
def likeContains (hay pat : String) : Bool :=
  hasInfixOf (pat.data.map Char.toLower) (hay.data.map Char.toLower)

/-- `MainWindow.create_complete_backup` (lines 5569-5700).  Scope filters:
`Complete Backup` takes every row; `Current Session Only` filters each
collection by the active session; `Specific Month` filters attendance and
salary_payments by session and month, fee_payments by session and
`months LIKE '%month%'`, while students degrade to the session filter and
staff are session-filtered in every non-complete scope.  Read-only: the
store is not mutated. -/
def create_complete_backup (st : Store) (scope : BackupScope)
    (current_session month now : String) : BackupDoc :=
  { backup_type :=
      match scope with
      | .complete => "Complete Backup"
      | .currentSessionOnly => "Current Session Only"
      | .specificMonth => "Specific Month"
    backup_date := now
    session := current_session
    school_name := get_setting st "school_name"
    school_address := get_setting st "school_address"
    school_email := get_setting st "school_email"
    students :=
      match scope with
      | .complete => st.students
      | _ => st.students.filter (fun s => s.session == current_session)
    staff :=
      match scope with
      | .complete => st.staff
      | _ => st.staff.filter (fun s => s.session == current_session)
    attendance :=
      match scope with
      | .complete => st.attendance
      | .currentSessionOnly => st.attendance.filter (fun a => a.session == current_session)
      | .specificMonth =>
          st.attendance.filter (fun a => a.session == current_session && a.month == month)
    salary_payments :=
      match scope with
      | .complete => st.salary_payments
      | .currentSessionOnly =>
          st.salary_payments.filter (fun s => s.session == current_session)
      | .specificMonth =>
          st.salary_payments.filter (fun s => s.session == current_session && s.month == month)
    fee_payments :=
      match scope with
      | .complete => st.fee_payments
      | .currentSessionOnly =>
          st.fee_payments.filter (fun f => f.session == current_session)
      | .specificMonth =>
          st.fee_payments.filter
            (fun f => f.session == current_session && likeContains f.months month) }

/-! ### Snapshot reconciler -/

/-- The restore radio buttons: merge (`Override`) or wipe first (`Reset`). -/
inductive RestorePolicy where
  | override
  | reset
deriving DecidableEq

/-- Column list of the fee-payment INSERT of `restore_complete_backup`
(lines 5804-5808): 19 columns. -/
def fee_insert_columns : List String :=
  ["receipt_number", "student_number", "student_name", "class", "section",
   "parent_name", "months", "payment_date", "tuition_fee", "lab_fee",
   "sport_fee", "computer_fee", "maintenance_fee", "exam_fee",
   "late_fee", "total_amount", "payment_mode", "payment_status", "session"]

/-- Number of `?` markers in the VALUES clause of that INSERT
(line 5809): twenty. -/
def fee_insert_placeholder_count : ℕ := 20

/-- One iteration of the fee-payment restore loop (lines 5801-5820).  When
the placeholder count disagrees with the column count, SQLite rejects the
statement, the bare `except` swallows the error and the row is skipped;
otherwise the `INSERT OR REPLACE` would upsert on the unique
`receipt_number`. -/
def fee_restore_row (acc : List FeePayment) (f : FeePayment) : List FeePayment :=
  if fee_insert_placeholder_count = fee_insert_columns.length then
    upsertBy (·.receipt_number) acc f
  else acc

/-- `MainWindow.restore_complete_backup` (lines 5702-5847).  Under `Reset`
all five collections are wiped first; school settings are overwritten from
the document; students and staff are `INSERT OR REPLACE`d on their unique
natural keys with the session embedded in the document; attendance rows go
through `INSERT OR REPLACE` with no unique column, hence are appended
unconditionally; salary rows are plainly inserted; fee rows all fail (see
`fee_restore_row`).  Per-row failures are swallowed by bare `except`
clauses. -/
def restore_complete_backup (st : Store) (doc : BackupDoc) (p : RestorePolicy) : Store :=
  let st0 :=
    match p with
    | .reset =>
        { st with students := [], staff := [], attendance := [],
                  salary_payments := [], fee_payments := [] }
    | .override => st
  let st1 := set_setting st0 "school_name" doc.school_name
  let st2 := set_setting st1 "school_address" doc.school_address
  let st3 := set_setting st2 "school_email" doc.school_email
  { st3 with
    students := doc.students.foldl (upsertBy (·.student_number)) st3.students
    staff := doc.staff.foldl (upsertBy (·.staff_id)) st3.staff
    attendance := st3.attendance ++ doc.attendance
    salary_payments := st3.salary_payments ++ doc.salary_payments
    fee_payments := doc.fee_payments.foldl fee_restore_row st3.fee_payments }

/-- The per-collection record counts the restore dialog reports
(lines 5825-5831): the lengths of the document arrays, in the order
students, staff, attendance, fee_payments, salary_payments. -/
def restore_report (doc : BackupDoc) : ℕ × ℕ × ℕ × ℕ × ℕ :=
  (doc.students.length, doc.staff.length, doc.attendance.length,
   doc.fee_payments.length, doc.salary_payments.length)

/-- The student-only restore filter combo (lines 2335-2348). -/
inductive StudentRestoreFilter where
  | allStudents
  | specificClass (c : String)
  | specificSection (s : String)
deriving DecidableEq

/-- Filter test of `restore_students`: a row is skipped when its class or
section does not match the selected filter. -/
def matchesFilter : StudentRestoreFilter → Student → Bool
  | .allStudents, _ => true
  | .specificClass c, s => s.class_ == c
  | .specificSection x, s => s.section_ == x

/-- One iteration of the `restore_students` loop: skip a row failing the
filter, otherwise `INSERT OR REPLACE` it stamped with the caller's active
session — not the embedded one — and count it. -/
def restore_students_step (f : StudentRestoreFilter) (current_session : String)
    (acc : Store × ℕ) (s : Student) : Store × ℕ :=
  if matchesFilter f s then
    let applied := upsertBy (·.student_number) acc.1.students { s with session := current_session }
    ({ acc.1 with students := applied }, acc.2 + 1)
  else acc

/-- `MainWindow.restore_students` (lines 2326-2381): replay the rows in
document order; skipped rows are not counted.  Returns the store and the
reported count. -/
def restore_students (st : Store) (data : List Student)
    (f : StudentRestoreFilter) (current_session : String) : Store × ℕ :=
  data.foldl (restore_students_step f current_session) (st, 0)

/-! ### Generic lemmas about the store operations -/

theorem upsertBy_of_fresh {α : Type} [DecidableEq α] (key : α → String)
    (acc : List α) (x : α) (h : ∀ t ∈ acc, key t ≠ key x) :
    upsertBy key acc x = acc ++ [x] := by
  unfold upsertBy
  congr 1
  rw [List.filter_eq_self]
  intro t ht
  simpa using h t ht

theorem foldl_upsertBy_nodup {α : Type} [DecidableEq α] (key : α → String) :
    ∀ (l acc : List α), ((acc ++ l).map key).Nodup →
      l.foldl (upsertBy key) acc = acc ++ l := by
  intro l
  induction l with
  | nil =>
    intro acc _
    simp
  | cons x xs ih =>
    intro acc h
    have hx : ∀ t ∈ acc, key t ≠ key x := by
      intro t ht heq
      rw [List.map_append, List.nodup_append] at h
      exact h.2.2 (List.mem_map_of_mem key ht)
        (by rw [heq]; exact List.mem_map_of_mem key (List.mem_cons_self x xs))
    have hstep : upsertBy key acc x = acc ++ [x] := upsertBy_of_fresh key acc x hx
    have hrearr : (acc ++ [x]) ++ xs = acc ++ x :: xs := by
      rw [List.append_assoc, List.singleton_append]
    rw [List.foldl_cons, hstep, ih (acc ++ [x]) (by rw [hrearr]; exact h), hrearr]

theorem fee_restore_row_eq (acc : List FeePayment) (f : FeePayment) :
    fee_restore_row acc f = acc := by
  simp [fee_restore_row, fee_insert_placeholder_count, fee_insert_columns]

theorem foldl_fee_restore : ∀ (l : List FeePayment) (acc : List FeePayment),
    l.foldl fee_restore_row acc = acc := by
  intro l
  induction l with
  | nil => intro acc; rfl
  | cons x xs ih => intro acc; rw [List.foldl_cons, fee_restore_row_eq]; exact ih acc

theorem restore_fee_payments_eq (st : Store) (doc : BackupDoc) (p : RestorePolicy) :
    (restore_complete_backup st doc p).fee_payments =
      match p with
      | .override => st.fee_payments
      | .reset => [] := by
  cases p <;> simp [restore_complete_backup, set_setting, foldl_fee_restore]

theorem restore_attendance_eq (st : Store) (doc : BackupDoc) (p : RestorePolicy) :
    (restore_complete_backup st doc p).attendance =
      (match p with
        | .override => st.attendance
        | .reset => []) ++ doc.attendance := by
  cases p <;> rfl

theorem restore_salary_eq (st : Store) (doc : BackupDoc) (p : RestorePolicy) :
    (restore_complete_backup st doc p).salary_payments =
      (match p with
        | .override => st.salary_payments
        | .reset => []) ++ doc.salary_payments := by
  cases p <;> rfl

theorem restore_students_complete_eq (st : Store) (doc : BackupDoc) (p : RestorePolicy) :
    (restore_complete_backup st doc p).students =
      doc.students.foldl (upsertBy (·.student_number))
        (match p with
          | .override => st.students
          | .reset => []) := by
  cases p <;> rfl

theorem restore_staff_complete_eq (st : Store) (doc : BackupDoc) (p : RestorePolicy) :
    (restore_complete_backup st doc p).staff =
      doc.staff.foldl (upsertBy (·.staff_id))
        (match p with
          | .override => st.staff
          | .reset => []) := by
  cases p <;> rfl

/-! ### C9: the student-number allocator -/

/-- The rendered student number for sequence value `n`. -/
def studentNumberOf (n : ℕ) : String := "STU" ++ zfill (natStr n) 6

theorem studentNumberOf_inj : Function.Injective studentNumberOf := by
  intro m n h
  have hm := decodeTagged_tag_zfill ['S', 'T', 'U'] rfl m
  have hn := decodeTagged_tag_zfill ['S', 'T', 'U'] rfl n
  have : (⟨['S', 'T', 'U']⟩ : String) = "STU" := rfl
  rw [this] at hm hn
  unfold studentNumberOf at h
  rw [← hm, ← hn, h]

/-- Iterated allocate-then-insert from the empty store: at each step the
operator clicks generate (pre-filling the number field) and saves the
student whose remaining fields are `info n`. -/
def genRun (info : ℕ → Student) : ℕ → Store
  | 0 => emptyStore
  | n + 1 =>
      save_student (genRun info n)
        { info n with student_number := generate_student_number (genRun info n) }

theorem genRun_students (info : ℕ → Student) :
    ∀ n : ℕ, (genRun info n).students =
      (List.range n).map (fun i => { info i with student_number := studentNumberOf (i + 1) }) := by
  intro n
  induction n with
  | zero => rfl
  | succ m ih =>
    have hlen : (genRun info m).students.length = m := by
      rw [ih, List.length_map, List.length_range]
    have hgen : generate_student_number (genRun info m) = studentNumberOf (m + 1) := by
      unfold generate_student_number studentNumberOf
      rw [hlen]
    have hfresh : ((genRun info m).students.any
        (fun t => t.student_number == studentNumberOf (m + 1))) = false := by
      rw [List.any_eq_false]
      intro t ht hbeq
      rw [ih] at ht
      obtain ⟨i, hi, rfl⟩ := List.mem_map.mp ht
      have : studentNumberOf (i + 1) = studentNumberOf (m + 1) := by
        simpa using hbeq
      have := studentNumberOf_inj this
      have him : i < m := List.mem_range.mp hi
      omega
    show (save_student (genRun info m) _).students = _
    unfold save_student
    rw [hgen, hfresh]
    simp only [Bool.false_eq_true, if_false]
    rw [ih, List.range_succ, List.map_append]
    rfl

/-- C9: the student-number allocator is count-based (`"STU"` plus the
zero-padded row count + 1, counted across all sessions); starting from the
empty store, generating and inserting `N` students yields the numbers
`STU000001 .. STU00000N` — `studentNumberOf 1` through `studentNumberOf N`
in store order — with no duplicates. -/
theorem student_number_sequence (info : ℕ → Student) (N : ℕ) :
    ((genRun info N).students.map (·.student_number)) =
        (List.range N).map (fun i => studentNumberOf (i + 1)) ∧
      ((genRun info N).students.map (·.student_number)).Nodup := by
  have hmap : ((genRun info N).students.map (·.student_number)) =
      (List.range N).map (fun i => studentNumberOf (i + 1)) := by
    rw [genRun_students, List.map_map]
    rfl
  refine ⟨hmap, ?_⟩
  rw [hmap]
  exact (List.nodup_range N).map (fun a b h => by
    have := studentNumberOf_inj h
    omega)

/-! ### C4 and C5: the receipt-number allocator -/

theorem foldl_maxCastStep_some (l : List String) :
    ∀ t : String, ∃ m, l.foldl maxCastStep (some t) = some m ∧ (m = t ∨ m ∈ l) ∧
      sqliteCastInt (strDrop t 3) ≤ sqliteCastInt (strDrop m 3) ∧
      ∀ x ∈ l, sqliteCastInt (strDrop x 3) ≤ sqliteCastInt (strDrop m 3) := by
  induction l with
  | nil =>
    intro t
    exact ⟨t, rfl, Or.inl rfl, le_refl _, by intro x hx; cases hx⟩
  | cons s xs ih =>
    intro t
    by_cases hgt : sqliteCastInt (strDrop s 3) > sqliteCastInt (strDrop t 3)
    · have hstep : maxCastStep (some t) s = some s := by
        simp [maxCastStep, hgt]
      obtain ⟨m, hm, hmem, hle, hall⟩ := ih s
      refine ⟨m, by rw [List.foldl_cons, hstep]; exact hm, ?_, ?_, ?_⟩
      · rcases hmem with h | h
        · exact Or.inr (h ▸ List.mem_cons_self s xs)
        · exact Or.inr (List.mem_cons_of_mem s h)
      · exact le_trans (le_of_lt hgt) hle
      · intro x hx
        rcases List.mem_cons.mp hx with rfl | hx'
        · exact hle
        · exact hall x hx'
    · have hstep : maxCastStep (some t) s = some t := by
        simp [maxCastStep, hgt]
      obtain ⟨m, hm, hmem, hle, hall⟩ := ih t
      refine ⟨m, by rw [List.foldl_cons, hstep]; exact hm, ?_, hle, ?_⟩
      · rcases hmem with h | h
        · exact Or.inl h
        · exact Or.inr (List.mem_cons_of_mem s h)
      · intro x hx
        rcases List.mem_cons.mp hx with rfl | hx'
        · exact le_trans (le_of_not_lt hgt) hle
        · exact hall x hx'

theorem maxByCast_spec (l : List String) (hl : l ≠ []) :
    ∃ m, maxByCast l = some m ∧ m ∈ l ∧
      ∀ x ∈ l, sqliteCastInt (strDrop x 3) ≤ sqliteCastInt (strDrop m 3) := by
  cases l with
  | nil => exact absurd rfl hl
  | cons s xs =>
    obtain ⟨m, hm, hmem, hle, hall⟩ := foldl_maxCastStep_some xs s
    refine ⟨m, ?_, ?_, ?_⟩
    · unfold maxByCast
      rw [List.foldl_cons]
      exact hm
    · rcases hmem with rfl | h
      · exact List.mem_cons_self m xs
      · exact List.mem_cons_of_mem s h
    · intro x hx
      rcases List.mem_cons.mp hx with rfl | hx'
      · exact hle
      · exact hall x hx'

theorem maxByCast_nil_iff (l : List String) : maxByCast l = none ↔ l = [] := by
  constructor
  · intro h
    by_contra hne
    obtain ⟨m, hm, _, _⟩ := maxByCast_spec l hne
    rw [h] at hm
    cases hm
  · intro h
    subst h
    rfl

theorem takeWhile_all_digits (cs : List Char) (h : cs.all Char.isDigit) :
    cs.takeWhile Char.isDigit = cs := by
  induction cs with
  | nil => rfl
  | cons c rest ih =>
    rw [List.all_cons, Bool.and_eq_true] at h
    rw [List.takeWhile_cons, if_pos h.1, ih h.2]

theorem castInt_of_wellFormed (r : String) (h : wellFormedSuffix r = true) :
    sqliteCastInt (strDrop r 3) = (decodeDigits (strDrop r 3).data : ℤ) := by
  unfold wellFormedSuffix at h
  rw [Bool.and_eq_true, decide_eq_true_eq] at h
  obtain ⟨hne, hdig⟩ := h
  rcases hcs : (strDrop r 3).data with _ | ⟨c, rest⟩
  · exact absurd hcs hne
  · rw [hcs] at hdig
    rw [List.all_cons, Bool.and_eq_true] at hdig
    have hcdig : c.isDigit = true := hdig.1
    have hspace : c ≠ ' ' := fun hc => by subst hc; exact absurd hcdig (by decide)
    have hminus : c ≠ '-' := fun hc => by subst hc; exact absurd hcdig (by decide)
    have hplus : c ≠ '+' := fun hc => by subst hc; exact absurd hcdig (by decide)
    have hdrop : (c :: rest).dropWhile (fun x => x == ' ') = c :: rest := by
      simp [List.dropWhile_cons, hspace]
    unfold sqliteCastInt
    rw [hcs, hdrop]
    dsimp only
    rw [if_neg hminus, if_neg hplus]
    unfold digitPrefixVal
    rw [takeWhile_all_digits (c :: rest) (by rw [List.all_cons, Bool.and_eq_true]; exact hdig)]

theorem pyInt_of_wellFormed (r : String) (h : wellFormedSuffix r = true) :
    pyInt (strDrop r 3) = some (decodeDigits (strDrop r 3).data) := by
  unfold wellFormedSuffix at h
  rw [Bool.and_eq_true, decide_eq_true_eq] at h
  unfold pyInt
  rw [if_pos ⟨h.1, h.2⟩]

theorem le_foldr_max (l : List ℕ) (x : ℕ) (hx : x ∈ l) : x ≤ l.foldr max 0 := by
  induction l with
  | nil => cases hx
  | cons a as ih =>
    rw [List.foldr_cons]
    rcases List.mem_cons.mp hx with rfl | h
    · exact le_max_left _ _
    · exact le_trans (ih h) (le_max_right _ _)

theorem foldr_max_le (l : List ℕ) (b : ℕ) (h : ∀ x ∈ l, x ≤ b) : l.foldr max 0 ≤ b := by
  induction l with
  | nil => exact Nat.zero_le b
  | cons a as ih =>
    rw [List.foldr_cons]
    exact max_le (h a (List.mem_cons_self a as))
      (ih (fun x hx => h x (List.mem_cons_of_mem a hx)))

/-- C4: the receipt-number allocator takes the maximum numeric suffix among
existing `REC`-prefixed receipt numbers — across all sessions, the scan has
no session filter — and allocates `"REC"` plus the zero-padded successor;
with no matching receipt the maximum is 0 and it returns `REC000001`.
Stated for stores whose `REC` receipts all carry numeric suffixes. -/
theorem receipt_allocation (st : Store)
    (h : ∀ r ∈ (st.fee_payments.map (·.receipt_number)).filter likeREC,
      wellFormedSuffix r = true) :
    generate_receipt_number st =
      some ("REC" ++ zfill (natStr (specReceiptMax st + 1)) 6) := by
  by_cases hemp : (st.fee_payments.map (·.receipt_number)).filter likeREC = []
  · have hmax : specReceiptMax st = 0 := by
      unfold specReceiptMax
      rw [hemp]
      rfl
    unfold generate_receipt_number
    rw [hemp, hmax]
    rfl
  · obtain ⟨m, hm, hmem, hall⟩ :=
      maxByCast_spec ((st.fee_payments.map (·.receipt_number)).filter likeREC) hemp
    have hwfm := h m hmem
    have hparse : decodeDigits (strDrop m 3).data = specReceiptMax st := by
      apply le_antisymm
      · exact le_foldr_max _ _ (List.mem_map_of_mem _ hmem)
      · apply foldr_max_le
        intro y hy
        obtain ⟨x, hx, rfl⟩ := List.mem_map.mp hy
        have hzx : sqliteCastInt (strDrop x 3) ≤ sqliteCastInt (strDrop m 3) := hall x hx
        rw [castInt_of_wellFormed x (h x hx), castInt_of_wellFormed m hwfm] at hzx
        exact_mod_cast hzx
    unfold generate_receipt_number
    rw [hm]
    dsimp only
    rw [pyInt_of_wellFormed m hwfm]
    dsimp only
    rw [hparse]

/-- Test fixture: a fee payment carrying the given receipt number. -/
def mkFee (rn : String) : FeePayment :=
  { receipt_number := rn, student_number := "STU000001", student_name := "Asha",
    class_ := "1st", section_ := "A", parent_name := "Prem", months := "March",
    payment_date := "2025-03-01", tuition_fee := 100, lab_fee := 0, sport_fee := 0,
    computer_fee := 0, maintenance_fee := 0, exam_fee := 0, late_fee := 0,
    total_amount := 100, payment_mode := "Cash", payment_status := "Full Paid",
    session := "2024-25" }

/-- Fixture store holding exactly `REC000001` and `REC000005`. -/
def recStoreTwo : Store :=
  { emptyStore with fee_payments := [mkFee "REC000001", mkFee "REC000005"] }

/-- Fixture store holding a single malformed receipt number. -/
def recStoreBad : Store :=
  { emptyStore with fee_payments := [mkFee "RECABC"] }

/-- Fixture store holding one malformed and one well-formed receipt. -/
def recStoreMixed : Store :=
  { emptyStore with fee_payments := [mkFee "RECABC", mkFee "REC000005"] }

/-- Witness for `receipt_allocation`: the empty store yields `REC000001`,
and a store with `REC000001` and `REC000005` yields `REC000006`. -/
theorem receipt_allocation_witness :
    (∀ r ∈ (recStoreTwo.fee_payments.map (·.receipt_number)).filter likeREC,
      wellFormedSuffix r = true) ∧
    generate_receipt_number emptyStore = some "REC000001" ∧
    generate_receipt_number recStoreTwo = some "REC000006" := by
  refine ⟨by decide, ?_, ?_⟩
  · rw [receipt_allocation emptyStore (by decide)]
    decide
  · rw [receipt_allocation recStoreTwo (by decide)]
    decide

/-- C5 counterexample: in a store whose only receipt number is `RECABC`
(a non-numeric suffix), the allocator does not return a next number — it
raises: the SQL scan returns the malformed row and `int("ABC")` throws
`ValueError`, modelled as `none`. -/
theorem receipt_allocation_raises : generate_receipt_number recStoreBad = none := by
  decide

/-- C5 (amended): a malformed `REC` identifier is not excluded from the
max-scan; it participates with the integer cast of its suffix.  The
allocator returns a well-formed next number whenever the row the scan
selects has a fully numeric suffix — so malformed identifiers are harmless
exactly when a well-formed receipt outranks them — and raises when the
selected row itself is malformed. -/
theorem receipt_allocation_wellformed_winner (st : Store) (m : String)
    (hm : maxByCast ((st.fee_payments.map (·.receipt_number)).filter likeREC) = some m)
    (hwf : wellFormedSuffix m = true) :
    generate_receipt_number st =
      some ("REC" ++ zfill (natStr (decodeDigits (strDrop m 3).data + 1)) 6) := by
  unfold generate_receipt_number
  rw [hm]
  dsimp only
  rw [pyInt_of_wellFormed m hwf]

/-- Witness for `receipt_allocation_wellformed_winner`: with `RECABC` and
`REC000005` in the store, the scan selects `REC000005` and the allocator
returns `REC000006` — the malformed identifier does not make it raise. -/
theorem receipt_allocation_wellformed_winner_witness :
    maxByCast ((recStoreMixed.fee_payments.map (·.receipt_number)).filter likeREC)
        = some "REC000005" ∧
    generate_receipt_number recStoreMixed = some "REC000006" := by
  refine ⟨by decide, ?_⟩
  rw [receipt_allocation_wellformed_winner recStoreMixed "REC000005" (by decide) (by decide)]
  decide

/-! ### Fixtures for the backup/restore claims -/

/-- Test fixture: a student in session 2024-25. -/
def sampleStudent : Student :=
  { student_number := "STU000001", full_name := "Asha", roll_number := "1",
    class_ := "1st", section_ := "A", parent_name := "Prem", gender := "Female",
    dob := "2015-01-01", parent_number := "1234567890", address := "X Road",
    session := "2024-25" }

/-- Test fixture: a staff member in session 2024-25. -/
def sampleStaff : Staff :=
  { staff_id := "STF000001", name := "Ravi", phone := "9876543210",
    email := "ravi@school", designation := "Teacher", qualification := "BEd",
    department := "Math", joining_date := "2020-01-01", salary := 100,
    address := "Y Road", session := "2024-25" }

/-- Test fixture: an attendance record in session 2024-25. -/
def sampleAttendance : AttendanceRecord :=
  { student_number := "STU000001", class_ := "1st", section_ := "A",
    month := "March", year := "2025", working_days := 20, days_present := 18,
    percentage := 90, session := "2024-25" }

/-- Test fixture: a salary payment in session 2024-25. -/
def sampleSalary : SalaryPayment :=
  { staff_id := "STF000001", staff_name := "Ravi", amount := 100,
    payment_date := "2025-03-31", month := "March", year := "2025",
    session := "2024-25" }

/-- Fixture store with one row in each collection, all in session 2024-25. -/
def wStore : Store :=
  { students := [sampleStudent], staff := [sampleStaff],
    attendance := [sampleAttendance], salary_payments := [sampleSalary],
    fee_payments := [mkFee "REC000001"], settings := [] }

/-- Fixture backup document with empty collection arrays. -/
def emptyDoc : BackupDoc :=
  { backup_type := "Current Session Only", backup_date := "2025-04-01 10:00:00",
    session := "2024-25", school_name := some "School ERP",
    school_address := some "", school_email := some "",
    students := [], staff := [], attendance := [], salary_payments := [],
    fee_payments := [] }

/-- Fixture document carrying a single fee payment. -/
def docFeeOne : BackupDoc := { emptyDoc with fee_payments := [mkFee "REC000001"] }

/-- A second attendance write for the composite key of `sampleAttendance`
with different days_present. -/
def attRec2 : AttendanceRecord :=
  { sampleAttendance with days_present := 10, percentage := 50 }

/-- Fixture store holding one attendance row. -/
def attStoreOne : Store := { emptyStore with attendance := [sampleAttendance] }

/-- Fixture document carrying one attendance row with the key of
`sampleAttendance`. -/
def docAttOne : BackupDoc := { emptyDoc with attendance := [attRec2] }

/-! ### C10: the fee-payment restore never applies a row -/

/-- C10: the fee-payment INSERT of the complete restore names 19 columns
but its VALUES clause holds 20 placeholders, so every per-row insert
raises a binding error that the bare except swallows: under both policies
zero fee_payments rows are applied — under Override the collection is
unchanged, under Reset it is left empty. -/
theorem fee_restore_applies_nothing :
    fee_insert_columns.length = 19 ∧ fee_insert_placeholder_count = 20 ∧
    (∀ (st : Store) (doc : BackupDoc),
      (restore_complete_backup st doc .override).fee_payments = st.fee_payments) ∧
    (∀ (st : Store) (doc : BackupDoc),
      (restore_complete_backup st doc .reset).fee_payments = []) := by
  refine ⟨rfl, rfl, ?_, ?_⟩
  · intro st doc
    exact restore_fee_payments_eq st doc .override
  · intro st doc
    exact restore_fee_payments_eq st doc .reset

/-! ### C3: double reconciliation of a fee-bearing document -/

/-- C3 counterexample: restoring `docFeeOne` (one fee entry with receipt
`REC000001`) twice with Override yields zero fee rows, not two rows with
that receipt number; twice with Reset also yields zero rows, not one per
entry. -/
theorem fee_double_restore_cex :
    (restore_complete_backup (restore_complete_backup emptyStore docFeeOne .override)
        docFeeOne .override).fee_payments.length = 0 ∧
    (restore_complete_backup (restore_complete_backup emptyStore docFeeOne .reset)
        docFeeOne .reset).fee_payments.length = 0 := by
  decide

/-- C3 (amended): re-importing the same fee-bearing document leaves the fee
ledger without any imported rows under either policy — twice under Override
the collection equals the pre-import one, twice under Reset it is empty;
zero rows per original entry rather than two (Override) or one (Reset),
because every fee insert fails on the placeholder/column mismatch. -/
theorem fee_double_restore (doc : BackupDoc) (st : Store) :
    (restore_complete_backup (restore_complete_backup st doc .override)
        doc .override).fee_payments = st.fee_payments ∧
    (restore_complete_backup (restore_complete_backup st doc .reset)
        doc .reset).fee_payments = [] := by
  constructor
  · have h1 := restore_fee_payments_eq (restore_complete_backup st doc .override) doc .override
    have h2 := restore_fee_payments_eq st doc .override
    rw [h1]
    exact h2
  · exact restore_fee_payments_eq _ doc .reset

/-! ### C2: attendance upsert key -/

/-- C2 counterexample: the store already holds an attendance row for
(STU000001, March, 2025, 2024-25); reconciling a backup row with the
identical composite key under Override creates a second row with that key
instead of updating in place. -/
theorem attendance_upsert_cex :
    (restore_complete_backup attStoreOne docAttOne .override).attendance.countP
        (attKey attRec2) = 2 := by
  decide

/-- C2 (amended): via the attendance save operation a second write with an
identical composite key updates the existing rows in place — the row count
and the key's multiplicity are unchanged and days_present/percentage are
overwritten; but via the complete-restore reconciler under Override,
attendance rows are appended unconditionally (`INSERT OR REPLACE` with no
unique constraint, no key comparison), so restoring a row whose key is
already present creates a second row with that key. -/
theorem attendance_upsert (st : Store) (r : AttendanceRecord)
    (h : 1 ≤ st.attendance.countP (attKey r)) :
    (save_attendance_one st r).attendance.length = st.attendance.length ∧
    (save_attendance_one st r).attendance.countP (attKey r)
        = st.attendance.countP (attKey r) ∧
    (∀ a ∈ (save_attendance_one st r).attendance, attKey r a = true →
      a.days_present = r.days_present ∧ a.percentage = r.percentage) ∧
    (∀ (st' : Store) (doc : BackupDoc),
      (restore_complete_backup st' doc .override).attendance
        = st'.attendance ++ doc.attendance) := by
  have hex : ∃ a ∈ st.attendance, attKey r a := by
    rw [← List.countP_pos]
    omega
  have hany : st.attendance.any (attKey r) = true := List.any_eq_true.mpr hex
  have hbranch : (save_attendance_one st r).attendance
      = st.attendance.map (fun a =>
          if attKey r a then
            { a with class_ := r.class_, section_ := r.section_,
                     working_days := r.working_days,
                     days_present := r.days_present,
                     percentage := r.percentage }
          else a) := by
    unfold save_attendance_one
    rw [if_pos hany]
  have hkey : ∀ a : AttendanceRecord,
      attKey r (if attKey r a then
        { a with class_ := r.class_, section_ := r.section_,
                 working_days := r.working_days,
                 days_present := r.days_present,
                 percentage := r.percentage }
      else a) = attKey r a := by
    intro a
    by_cases hk : attKey r a = true
    · rw [if_pos hk]
      rfl
    · rw [if_neg hk]
  refine ⟨?_, ?_, ?_, ?_⟩
  · rw [hbranch, List.length_map]
  · rw [hbranch, List.countP_map]
    apply List.countP_congr
    intro a _
    rw [Function.comp_apply, hkey a]
  · intro a ha hak
    rw [hbranch] at ha
    obtain ⟨b, _, rfl⟩ := List.mem_map.mp ha
    by_cases hk : attKey r b = true
    · rw [if_pos hk]
      exact ⟨rfl, rfl⟩
    · rw [if_neg hk] at hak ⊢
      exact absurd hak hk
  · intro st' doc
    exact restore_attendance_eq st' doc .override

/-- Witness for `attendance_upsert` at the one-row store and the identical
key: one row before, one row after, with the updated values present. -/
theorem attendance_upsert_witness :
    1 ≤ attStoreOne.attendance.countP (attKey attRec2) ∧
    (save_attendance_one attStoreOne attRec2).attendance.length
        = attStoreOne.attendance.length ∧
    (save_attendance_one attStoreOne attRec2).attendance.countP (attKey attRec2)
        = attStoreOne.attendance.countP (attKey attRec2) := by
  refine ⟨by decide, ?_, ?_⟩
  · exact (attendance_upsert attStoreOne attRec2 (by decide)).1
  · exact (attendance_upsert attStoreOne attRec2 (by decide)).2.1

/-! ### C1: export → reconcile round trip -/

/-- Export `Current Session Only`, then restore the produced document into
the empty store under Override. -/
def roundTrip (st : Store) (sess mon now : String) : Store :=
  restore_complete_backup emptyStore
    (create_complete_backup st .currentSessionOnly sess mon now) .override

/-- C1 counterexample: the round trip does not reproduce the fee_payments
collection — with one fee payment in the session, the restored collection
is empty, because every fee insert fails. -/
theorem export_restore_roundtrip_cex :
    (roundTrip wStore "2024-25" "" "").fee_payments ≠ wStore.fee_payments := by
  decide

/-- C1 (amended): exporting `CurrentSessionOnly` and reconciling the
document with Override into the empty store reproduces the business-field
values of the session's rows in four of the five collections — students,
staff, attendance and salary_payments come back equal, in order; the
fee_payments collection instead comes back empty, because every fee insert
fails.  The student/staff hypotheses record the store's `UNIQUE` natural
keys, which every real store satisfies. -/
theorem export_restore_roundtrip (st : Store) (sess mon now : String)
    (hstu : ((st.students.filter (fun s => s.session == sess)).map (·.student_number)).Nodup)
    (hstf : ((st.staff.filter (fun s => s.session == sess)).map (·.staff_id)).Nodup) :
    (roundTrip st sess mon now).students
        = st.students.filter (fun s => s.session == sess) ∧
    (roundTrip st sess mon now).staff
        = st.staff.filter (fun s => s.session == sess) ∧
    (roundTrip st sess mon now).attendance
        = st.attendance.filter (fun a => a.session == sess) ∧
    (roundTrip st sess mon now).salary_payments
        = st.salary_payments.filter (fun s => s.session == sess) ∧
    (roundTrip st sess mon now).fee_payments = [] := by
  refine ⟨?_, ?_, ?_, ?_, ?_⟩
  · have h0 : (roundTrip st sess mon now).students
        = (st.students.filter (fun s => s.session == sess)).foldl
            (upsertBy (·.student_number)) [] := rfl
    rw [h0]
    have := foldl_upsertBy_nodup (·.student_number)
      (st.students.filter (fun s => s.session == sess)) [] (by simpa using hstu)
    rw [this, List.nil_append]
  · have h0 : (roundTrip st sess mon now).staff
        = (st.staff.filter (fun s => s.session == sess)).foldl
            (upsertBy (·.staff_id)) [] := rfl
    rw [h0]
    have := foldl_upsertBy_nodup (·.staff_id)
      (st.staff.filter (fun s => s.session == sess)) [] (by simpa using hstf)
    rw [this, List.nil_append]
  · have h0 : (roundTrip st sess mon now).attendance
        = [] ++ st.attendance.filter (fun a => a.session == sess) := rfl
    rw [h0, List.nil_append]
  · have h0 : (roundTrip st sess mon now).salary_payments
        = [] ++ st.salary_payments.filter (fun s => s.session == sess) := rfl
    rw [h0, List.nil_append]
  · have h0 : (roundTrip st sess mon now).fee_payments
        = (st.fee_payments.filter (fun f => f.session == sess)).foldl
            fee_restore_row [] := rfl
    rw [h0, foldl_fee_restore]

/-- Witness for `export_restore_roundtrip` at `wStore` and session
2024-25: the four collections come back equal and the fee collection comes
back empty. -/
theorem export_restore_roundtrip_witness :
    ((wStore.students.filter (fun s => s.session == "2024-25")).map (·.student_number)).Nodup ∧
    (roundTrip wStore "2024-25" "March" "2025-04-01 10:00:00").students
        = wStore.students.filter (fun s => s.session == "2024-25") ∧
    (roundTrip wStore "2024-25" "March" "2025-04-01 10:00:00").fee_payments = [] := by
  refine ⟨by decide, ?_, ?_⟩
  · exact (export_restore_roundtrip wStore "2024-25" "March" "2025-04-01 10:00:00"
      (by decide) (by decide)).1
  · exact (export_restore_roundtrip wStore "2024-25" "March" "2025-04-01 10:00:00"
      (by decide) (by decide)).2.2.2.2

/-! ### C6: reported restore counts -/

theorem restore_students_aux (f : StudentRestoreFilter) (cs : String) :
    ∀ (data : List Student) (st : Store) (n : ℕ),
      (data.foldl (restore_students_step f cs) (st, n)).2
          = n + (data.filter (matchesFilter f)).length ∧
      (data.foldl (restore_students_step f cs) (st, n)).1.students
          = (data.filter (matchesFilter f)).foldl
              (fun l s => upsertBy (·.student_number) l { s with session := cs })
              st.students := by
  intro data
  induction data with
  | nil =>
    intro st n
    exact ⟨by simp, rfl⟩
  | cons s rest ih =>
    intro st n
    by_cases hm : matchesFilter f s = true
    · have hstep : restore_students_step f cs (st, n) s
          = ({ st with students :=
                upsertBy (·.student_number) st.students { s with session := cs } },
             n + 1) := by
        unfold restore_students_step
        rw [if_pos hm]
      rw [List.foldl_cons, hstep, List.filter_cons, if_pos hm]
      obtain ⟨h1, h2⟩ := ih _ (n + 1)
      refine ⟨?_, ?_⟩
      · rw [h1, List.length_cons]
        omega
      · rw [h2, List.foldl_cons]
    · have hstep : restore_students_step f cs (st, n) s = (st, n) := by
        unfold restore_students_step
        rw [if_neg hm]
      rw [List.foldl_cons, hstep, List.filter_cons, if_neg hm]
      exact ih st n

/-- C6 (amended): the student-only restore path returns the count of rows
actually applied — rows failing the class/section filter are skipped and
not counted, and each counted row is upserted into the store stamped with
the caller's session; the complete-backup path instead reports the lengths
of the document arrays, counting rows whose insertion failed — in
particular it reports every fee entry although none is ever applied. -/
theorem restore_reported_counts :
    (∀ (st : Store) (data : List Student) (f : StudentRestoreFilter) (cs : String),
      (restore_students st data f cs).2 = (data.filter (matchesFilter f)).length ∧
      (restore_students st data f cs).1.students
          = (data.filter (matchesFilter f)).foldl
              (fun l s => upsertBy (·.student_number) l { s with session := cs })
              st.students) ∧
    (∀ doc : BackupDoc,
      restore_report doc
        = (doc.students.length, doc.staff.length, doc.attendance.length,
           doc.fee_payments.length, doc.salary_payments.length)) ∧
    (∀ (st : Store) (doc : BackupDoc),
      (restore_complete_backup st doc .override).fee_payments = st.fee_payments) := by
  refine ⟨?_, fun _ => rfl, ?_⟩
  · intro st data f cs
    have h := restore_students_aux f cs data st 0
    unfold restore_students
    exact ⟨by rw [h.1, Nat.zero_add], h.2⟩
  · intro st doc
    exact restore_fee_payments_eq st doc .override

/-- C6 counterexample: restoring a document holding one fee payment
reports one fee record although zero fee rows are applied — the
complete-backup path counts failed records. -/
theorem restore_reported_counts_cex :
    (restore_report docFeeOne).2.2.2.1 = 1 ∧
    (restore_complete_backup emptyStore docFeeOne .override).fee_payments.length = 0 := by
  decide

end SchoolErp
